import Mathlib

/-!
Verification of the batch parcel-fetch pipeline of the Zornade parcel
downloader plugin.  The definitions below are a shallow embedding of
`processAlgorithm` and its inner function `download_parcel_info` in
src/ParcelDownloader.py (the authoritative copy; the other files in the
repository are near duplicates).  External collaborators (the QGIS
geometry engine, the HTTP stack, the feedback object) are modelled as
explicit inputs: the geometry engine as a pair of functions producing an
abstract geometry value carrying its observable checks, the HTTP stack as
a map from parcel identifier to the response outcome, and the cooperative
cancellation flag as a Boolean stream sampled at batch boundaries.
-/

namespace ParcelFetch

/-- Observable result of constructing a QgsGeometry: the two checks the
source consults, `isEmpty` (line 705, 718, 724) and `isGeosValid`
(lines 705 and 718).  The geometry engine itself is external to the
repository, so a geometry value is identified with these observables. -/
structure GeomVal where
  isEmpty : Bool
  isGeosValid : Bool
deriving DecidableEq, Repr

/-- External QGIS geometry engine: `QgsGeometry.fromWkt` and
`QgsGeometry.fromWkb` (the latter fed with the bytes decoded from a hex
string).  Both are opaque collaborators, passed in as functions. -/
structure GeomEnv where
  fromWkt : String → GeomVal
  fromWkb : List Nat → GeomVal

/-- Raw geometry value found under the `geom` key of a detail payload,
after the truthiness test of line 675.  Mirrors the dynamic type tests of
lines 678 and 711: a GeoJSON dict whose `type` is `Polygon` (coordinates
are a list of rings, a ring being a list of coordinate pairs), a GeoJSON
dict whose `type` is `MultiPolygon` (a list of polygons, each a list of
rings), a dict with any other `type` value, a string, or any other
truthy value (which matches neither `isinstance` test). -/
inductive GeomData where
  | jsonPoly (coordinates : List (List (Float × Float)))
  | jsonMulti (coordinates : List (List (List (Float × Float))))
  | jsonOtherType
  | str (s : String)
  | nonGeoValue

/-- The `geom` entry of a detail payload as tested on line 675:
`if "geom" in parcel_info and parcel_info["geom"]:` distinguishes a
missing key, a present but falsy value, and a truthy raw geometry. -/
inductive GeomField where
  | missing
  | falsy
  | val (g : GeomData)

/-- Outcome of the geometry-processing block (lines 674 to 746) for one
record: either a geometry was attached to the feature
(`geometry_processed = True`) or the block fell through or raised, in
which case the record is counted as an error and skipped. -/
inductive GeomOutcome where
  | attached (g : GeomVal)
  | failed
deriving DecidableEq, Repr

/-- Hex alphabet used by the well-known-binary sniff test on line 713:
`all(c in '0123456789ABCDEFabcdef' for c in geom_data)`. -/
def hexAlphabet : List Char := "0123456789ABCDEFabcdef".toList

/-- Line 713: a string is treated as hexadecimal well-known binary when
it is longer than 20 characters and every character is a hex digit. -/
def looksHexWkb (s : String) : Bool :=
  20 < s.length && s.data.all (fun c => hexAlphabet.contains c)

/-- Numeric value of one hex digit (used to model `bytes.fromhex`). -/
def hexVal (c : Char) : Nat :=
  if c.isDigit then c.toNat - '0'.toNat
  else if 'a' ≤ c && c ≤ 'f' then c.toNat - 'a'.toNat + 10
  else if 'A' ≤ c && c ≤ 'F' then c.toNat - 'A'.toNat + 10
  else 0

/-- Model of `bytes.fromhex` (line 714): pairs of hex digits become
bytes; an odd-length string raises ValueError, modelled as `none` (the
exception is caught on line 735 and counted as a record error). -/
def hexDecode : List Char → Option (List Nat)
  | [] => some []
  | [_] => none
  | a :: b :: rest => (hexDecode rest).map (fun bs => (16 * hexVal a + hexVal b) :: bs)

/-- Coordinate formatting of line 686 and 696: `f"{coord[0]} {coord[1]}"`. -/
def fmtCoord (c : Float × Float) : String :=
  toString c.1 ++ " " ++ toString c.2

/-- Ring formatting of lines 686 and 696: the joined coordinate list in
parentheses. -/
def fmtRing (r : List (Float × Float)) : String :=
  "(" ++ String.intercalate (", ") (r.map fmtCoord) ++ ")"

/-- Lines 684 to 687 and 694 to 697: keep exactly the rings with at
least 4 coordinate pairs, formatting each kept ring. -/
def validRingWkts (rings : List (List (Float × Float))) : List String :=
  (rings.filter (fun r => 4 ≤ r.length)).map fmtRing

/-- Line 698: `POLYGON(...)` around the joined ring list. -/
def polygonWkt (ringWkts : List String) : String :=
  "POLYGON(" ++ String.intercalate (", ") ringWkts ++ ")"

/-- Line 689: one polygon part `(...)` of a multipolygon. -/
def polygonPartWkt (ringWkts : List String) : String :=
  "(" ++ String.intercalate (", ") ringWkts ++ ")"

/-- Line 691: `MULTIPOLYGON(...)` around the joined polygon parts. -/
def multiPolygonWkt (polyWkts : List String) : String :=
  "MULTIPOLYGON(" ++ String.intercalate (", ") polyWkts ++ ")"

/-- Lines 683 to 689: for each polygon of a multipolygon keep its valid
rings; a polygon with no valid ring is dropped (line 688 guard). -/
def multiPolygonParts (coordinates : List (List (List (Float × Float)))) : List String :=
  coordinates.filterMap (fun poly =>
    let rings := validRingWkts poly
    if rings.isEmpty then none else some (polygonPartWkt rings))

/-- Lines 705 to 709 (and 718 to 720): the acceptance gate after the
GeoJSON branches.  The Python guard is
`if 'qgis_geom' in locals() and not qgis_geom.isEmpty() and qgis_geom.isGeosValid():`.
Because `qgis_geom` is a local of `processAlgorithm` and not of the loop
body, a value assigned while handling an EARLIER record is still in
`locals()` here; the argument is therefore the current value of the
variable, which may be stale.  `none` models the variable never having
been assigned so far in the job. -/
def jsonValidityGate (q : Option GeomVal) : Option GeomVal × GeomOutcome :=
  match q with
  | some g => (some g, if !g.isEmpty && g.isGeosValid then GeomOutcome.attached g else GeomOutcome.failed)
  | none => (none, GeomOutcome.failed)

/-- Geometry-processing block, lines 676 to 734, for one truthy `geom`
value.  `qvar` is the current value of the function-scoped local
`qgis_geom` (none when never assigned); the result pairs the value of
that local after the block with the outcome.  Branches:
GeoJSON Polygon and MultiPolygon (lines 678 to 709), hex well-known
binary (lines 712 to 720), well-known text (lines 721 to 726); a dict of
another type or a non-dict non-string value matches no branch and falls
through to the `if not geometry_processed` failure of line 728. -/
def processGeomData (env : GeomEnv) (qvar : Option GeomVal) : GeomData → Option GeomVal × GeomOutcome
  | GeomData.jsonPoly coordinates =>
    if coordinates.isEmpty then (qvar, GeomOutcome.failed)
    else
      let rings := validRingWkts coordinates
      let q := if rings.isEmpty then qvar else some (env.fromWkt (polygonWkt rings))
      jsonValidityGate q
  | GeomData.jsonMulti coordinates =>
    if coordinates.isEmpty then (qvar, GeomOutcome.failed)
    else
      let polys := multiPolygonParts coordinates
      let q := if polys.isEmpty then qvar else some (env.fromWkt (multiPolygonWkt polys))
      jsonValidityGate q
  | GeomData.jsonOtherType => (qvar, GeomOutcome.failed)
  | GeomData.str s =>
    if looksHexWkb s then
      match hexDecode s.data with
      | none => (qvar, GeomOutcome.failed)
      | some bs =>
        let g := env.fromWkb bs
        (some g, if !g.isEmpty && g.isGeosValid then GeomOutcome.attached g else GeomOutcome.failed)
    else
      let g := env.fromWkt s
      (some g, if !g.isEmpty then GeomOutcome.attached g else GeomOutcome.failed)
  | GeomData.nonGeoValue => (qvar, GeomOutcome.failed)

/-- Detail payload (`info_data["data"]`) restricted to the `geom` entry;
the scalar attribute fields copied on lines 606 to 671 carry no control
flow relevant to any claim (their conversion errors join the same
per-record error path through the `except` of line 753) and are elided. -/
structure Payload where
  geom : GeomField

/-- Parsed body of a 200 response of the detail endpoint: the `success`
flag, the optional `data` object and the optional `message` string
(lines 505 to 509). -/
structure InfoParse where
  success : Bool
  data : Option Payload
  message : Option String

/-- Outcome of the single HTTP POST issued by `download_parcel_info`
(lines 496 to 535): a 200 whose body parses (or fails to parse, the
ValueError of line 510), or one of the distinguished non-200 statuses,
or a transport-level exception. -/
inductive HttpOutcome where
  | ok (parse : Option InfoParse)
  | notFound
  | rateLimited
  | serverError (txt : String)
  | otherStatus (code : Nat) (txt : String)
  | timeout
  | connError
  | exn (msg : String)

/-- Value returned by `download_parcel_info`: the tuples
`(fid, True, data)` and `(fid, False, message)` of lines 506 to 535. -/
inductive DownloadResult where
  | ok (fid : String) (payload : Payload)
  | fail (fid : String) (msg : String)

/-- Identifier carried by a download result (first tuple component). -/
def DownloadResult.fidOf : DownloadResult → String
  | DownloadResult.ok fid _ => fid
  | DownloadResult.fail fid _ => fid

/-- Model of `download_parcel_info` (lines 484 to 535).  It issues
exactly one POST, whose outcome is `resp fid`; there is no retry loop.
Every branch of the source returns a tuple; the error strings follow the
source texts (response-dependent suffixes elided where the source slices
the body). -/
def download_parcel_info (resp : String → HttpOutcome) (fid : String) : DownloadResult :=
  match resp fid with
  | HttpOutcome.ok none => DownloadResult.fail fid ("Invalid JSON response")
  | HttpOutcome.ok (some p) =>
    if p.success then
      match p.data with
      | some d => DownloadResult.ok fid d
      | none => DownloadResult.fail fid ("API Error: " ++ p.message.getD ("Invalid response format"))
    else
      DownloadResult.fail fid ("API Error: " ++ p.message.getD ("Invalid response format"))
  | HttpOutcome.notFound => DownloadResult.fail fid ("Parcel not found")
  | HttpOutcome.rateLimited => DownloadResult.fail fid ("Rate limited")
  | HttpOutcome.serverError txt => DownloadResult.fail fid ("Server error (500): " ++ txt)
  | HttpOutcome.otherStatus code txt =>
    DownloadResult.fail fid ("HTTP " ++ toString code ++ ": " ++ txt)
  | HttpOutcome.timeout => DownloadResult.fail fid ("Request timeout")
  | HttpOutcome.connError => DownloadResult.fail fid ("Connection error")
  | HttpOutcome.exn msg => DownloadResult.fail fid ("Exception: " ++ msg)

/-- One `setProgress` call of the batch loop (lines 765 to 767).  The
argument of the source call is `int(batch_end / total_parcels * 100)`;
the float division and truncation are not modelled, the report instead
records the data the argument is computed from (`batch_end` and
`total_parcels`) together with the value of the success counter
`processed_count` at the moment of the call, so that theorems can speak
about which counters the signal is derived from. -/
structure ProgressReport where
  batchEnd : Nat
  total : Nat
  processedAtReport : Nat
deriving DecidableEq, Repr

/-- Mutable state of the batch loop of `processAlgorithm`.  `calls`
records the parcel identifiers for which an HTTP POST to the detail
endpoint was issued, in order; `attempted` the identifiers submitted to
the worker pool; `emitted` the features added to the sink (identifier
and attached geometry); `qgisGeomVar` the function-scoped local
`qgis_geom`; `halted` models having left the loop through `break`;
`canceledByUser` the cancellation message of line 542; `fatal` the
`reportError(..., fatalError=True)` of line 547. -/
structure JobState where
  processed_count : Nat := 0
  error_count : Nat := 0
  emitted : List (String × GeomVal) := []
  calls : List String := []
  attempted : List String := []
  progressTrace : List ProgressReport := []
  canceledByUser : Bool := false
  fatal : Bool := false
  halted : Bool := false
  qgisGeomVar : Option GeomVal := none
deriving DecidableEq, Repr

/-- Per-result body of the batch loop (lines 585 to 763) for one element
of `batch_results`.  A failed download counts one error (lines 759 to
763); a successful download with a missing or falsy `geom` counts one
error (lines 741 to 746); otherwise the geometry block runs, updating
the `qgis_geom` local, and either the feature is added to the sink
(lines 749 to 751) or the record counts one error (lines 728 to 739).
The per-batch log counters `batch_processed` and `batch_errors` only
gate warning messages and are elided. -/
def processRecord (env : GeomEnv) (st : JobState) : DownloadResult → JobState
  | DownloadResult.fail _ _ => { st with error_count := st.error_count + 1 }
  | DownloadResult.ok fid payload =>
    match payload.geom with
    | GeomField.missing => { st with error_count := st.error_count + 1 }
    | GeomField.falsy => { st with error_count := st.error_count + 1 }
    | GeomField.val gd =>
      match processGeomData env st.qgisGeomVar gd with
      | (q, GeomOutcome.attached g) =>
        { st with qgisGeomVar := q,
                  emitted := st.emitted ++ [(fid, g)],
                  processed_count := st.processed_count + 1 }
      | (q, GeomOutcome.failed) =>
        { st with qgisGeomVar := q, error_count := st.error_count + 1 }

/-- One batch (lines 566 to 763): every identifier of the batch is
submitted to the worker pool and performs exactly one POST through
`download_parcel_info`; the collected results are then folded through
`processRecord`.  The source consumes results in completion order, which
is nondeterministic; the fold here uses submission order, and no theorem
below depends on the order within one batch. -/
def processBatch (env : GeomEnv) (resp : String → HttpOutcome)
    (st : JobState) (batch : List String) : JobState :=
  let results := batch.map (download_parcel_info resp)
  let st1 := { st with calls := st.calls ++ batch, attempted := st.attempted ++ batch }
  results.foldl (processRecord env) st1

/-- Slice of the identifier list handled by batch `i` (lines 553 to
554): `parcel_fids[batch_start:batch_end]` with `batch_start = i * B`
and `batch_end = min(batch_start + B, total)`. -/
def batchSlice (fids : List String) (B i : Nat) : List String :=
  (fids.drop (i * B)).take B

/-- Number of loop iterations of `for batch_start in range(0, total_parcels,
batch_size)`, equal to the `total_batches` computed on line 556 of the
source: `(total_parcels + batch_size - 1) // batch_size`. -/
def numBatches (N B : Nat) : Nat := (N + B - 1) / B

/-- One iteration of the batch loop (lines 540 to 776) for batch index
`i`.  The boundary checks run in source order: the cancellation check of
line 541 first, then the error-budget check of line 546
(`error_count > max_errors`); a `break` is modelled by the sticky
`halted` flag.  The cooperative cancellation flag is sampled at the
batch boundary (`canceled i`); the further checks inside the batch
(lines 574 and 587) are modelled as returning that same sample, so a
batch whose boundary check passed is processed in full.  The
`setProgress` call of line 766 is appended after the batch; the
politeness sleep of line 776 has no observable effect and is elided. -/
def stepBatch (env : GeomEnv) (resp : String → HttpOutcome) (canceled : Nat → Bool)
    (fids : List String) (B maxErr : Nat) (st : JobState) (i : Nat) : JobState :=
  if st.halted then st
  else if canceled i then { st with halted := true, canceledByUser := true }
  else if maxErr < st.error_count then { st with halted := true, fatal := true }
  else
    let st1 := processBatch env resp st (batchSlice fids B i)
    { st1 with progressTrace := st1.progressTrace ++
        [⟨min ((i + 1) * B) fids.length, fids.length, st1.processed_count⟩] }

/-- State after the first `k` iterations of the batch loop. -/
def runUpTo (env : GeomEnv) (resp : String → HttpOutcome) (canceled : Nat → Bool)
    (fids : List String) (B maxErr : Nat) (k : Nat) : JobState :=
  (List.range k).foldl (stepBatch env resp canceled fids B maxErr) {}

/-- The whole batch loop (lines 540 to 776): all `numBatches` iterations. -/
def runJob (env : GeomEnv) (resp : String → HttpOutcome) (canceled : Nat → Bool)
    (fids : List String) (B maxErr : Nat) : JobState :=
  runUpTo env resp canceled fids B maxErr (numBatches fids.length B)

/-- Adaptive batch size policy of lines 474 to 479. -/
def batchSizeFor (total_found : Nat) : Nat :=
  if total_found ≤ 50 then 10 else if total_found ≤ 200 then 20 else 25

/-- Error budget of line 471: `min(50, len(parcel_fids) // 10)`. -/
def maxErrorsFor (n : Nat) : Nat := min 50 (n / 10)

/-- Step 2 of `processAlgorithm` from line 460 on: an empty identifier
list returns immediately (lines 460 to 463) with the output untouched
and no detail-endpoint call; otherwise the batch loop runs with the
adaptive batch size and the error budget computed from the list length. -/
def fetchJob (env : GeomEnv) (resp : String → HttpOutcome) (canceled : Nat → Bool)
    (fids : List String) : JobState :=
  if fids.isEmpty then {}
  else runJob env resp canceled fids (batchSizeFor fids.length) (maxErrorsFor fids.length)

/-! Concrete scenarios used to exercise the claims on explicit inputs. -/

/-- Geometry engine whose constructions are always non-empty and valid. -/
def envOkValid : GeomEnv := ⟨fun _ => ⟨false, true⟩, fun _ => ⟨false, true⟩⟩

/-- Geometry engine whose constructions are non-empty but fail the GEOS
validity check (a non-simple, self-intersecting parse result). -/
def envOkInvalid : GeomEnv := ⟨fun _ => ⟨false, false⟩, fun _ => ⟨false, false⟩⟩

/-- Payload carrying a short well-known-text geometry string. -/
def goodPayload : Payload := ⟨GeomField.val (GeomData.str ("P"))⟩

/-- A GeoJSON ring with only three coordinate pairs (an invalid ring). -/
def threePointRing : List (Float × Float) := [(0, 0), (1, 0), (1, 1)]

/-- Payload whose GeoJSON Polygon has a single invalid three-point ring. -/
def badRingPayload : Payload := ⟨GeomField.val (GeomData.jsonPoly [threePointRing])⟩

/-- Payload of a successful detail response without a geometry. -/
def noGeomPayload : Payload := ⟨GeomField.missing⟩

/-- Wraps a payload as a well-formed successful detail response. -/
def okResp (p : Payload) : HttpOutcome := HttpOutcome.ok (some ⟨true, some p, none⟩)

/-- Detail endpoint on which every request succeeds with a geometry. -/
def respAllGood : String → HttpOutcome := fun _ => okResp goodPayload

/-- Eleven identifiers: with the adaptive policy (batch size 10) they
split into a full first batch and a second batch holding only p11. -/
def fidsEleven : List String :=
  ["p01", "p02", "p03", "p04", "p05", "p06", "p07", "p08", "p09", "p10", "p11"]

/-- Responses for the stale-geometry scenario: every parcel succeeds;
p11 carries the Polygon whose only ring has three points. -/
def respStale : String → HttpOutcome := fun fid =>
  okResp (if fid = "p11" then badRingPayload else goodPayload)

/-- Responses for the budget scenario: p01 and p11 time out, the rest
succeed with a geometry. -/
def respBudget : String → HttpOutcome := fun fid =>
  if fid = "p01" ∨ fid = "p11" then HttpOutcome.timeout else okResp goodPayload

/-- Twenty identifiers: with the adaptive policy (batch size 10) they
split into two full batches. -/
def fidsTwenty : List String :=
  ["a01", "a02", "a03", "a04", "a05", "a06", "a07", "a08", "a09", "a10",
   "b01", "b02", "b03", "b04", "b05", "b06", "b07", "b08", "b09", "b10"]

/-- The first batch of `fidsTwenty`. -/
def fidsFirstTen : List String :=
  ["a01", "a02", "a03", "a04", "a05", "a06", "a07", "a08", "a09", "a10"]

/-- Responses for the progress scenario: the first ten parcels succeed
with a geometry, the second ten succeed but lack a geometry. -/
def respHalfGeom : String → HttpOutcome := fun fid =>
  okResp (if fidsFirstTen.contains fid then goodPayload else noGeomPayload)

/-- Three identifiers for small single-identifier-batch scenarios. -/
def fidsThree : List String := ["t1", "t2", "t3"]

/-! Structural lemmas about one record. -/

theorem download_fidOf (resp : String → HttpOutcome) (fid : String) :
    (download_parcel_info resp fid).fidOf = fid := by
  unfold download_parcel_info
  cases resp fid with
  | ok parse =>
    cases parse with
    | none => rfl
    | some p =>
      cases hp : p.success
      · simp [hp, DownloadResult.fidOf]
      · simp only [hp, if_true]
        cases p.data <;> rfl
  | notFound => rfl
  | rateLimited => rfl
  | serverError txt => rfl
  | otherStatus code txt => rfl
  | timeout => rfl
  | connError => rfl
  | exn msg => rfl

theorem processRecord_frame (env : GeomEnv) (st : JobState) (r : DownloadResult) :
    (processRecord env st r).calls = st.calls ∧
    (processRecord env st r).attempted = st.attempted ∧
    (processRecord env st r).progressTrace = st.progressTrace ∧
    (processRecord env st r).halted = st.halted ∧
    (processRecord env st r).canceledByUser = st.canceledByUser ∧
    (processRecord env st r).fatal = st.fatal := by
  cases r with
  | fail fid msg => exact ⟨rfl, rfl, rfl, rfl, rfl, rfl⟩
  | ok fid payload =>
    obtain ⟨gf⟩ := payload
    cases gf with
    | missing => exact ⟨rfl, rfl, rfl, rfl, rfl, rfl⟩
    | falsy => exact ⟨rfl, rfl, rfl, rfl, rfl, rfl⟩
    | val gd =>
      rcases h : processGeomData env st.qgisGeomVar gd with ⟨q, out⟩
      cases out <;> simp [processRecord, h]

theorem processRecord_outcome_count (env : GeomEnv) (st : JobState) (r : DownloadResult) :
    (processRecord env st r).emitted.length + (processRecord env st r).error_count
      = st.emitted.length + st.error_count + 1 := by
  cases r with
  | fail fid msg => simp [processRecord]; omega
  | ok fid payload =>
    obtain ⟨gf⟩ := payload
    cases gf with
    | missing => simp [processRecord]; omega
    | falsy => simp [processRecord]; omega
    | val gd =>
      rcases h : processGeomData env st.qgisGeomVar gd with ⟨q, out⟩
      cases out <;> simp [processRecord, h] <;> omega

theorem processRecord_error_mono (env : GeomEnv) (st : JobState) (r : DownloadResult) :
    st.error_count ≤ (processRecord env st r).error_count := by
  cases r with
  | fail fid msg => simp [processRecord]
  | ok fid payload =>
    obtain ⟨gf⟩ := payload
    cases gf with
    | missing => simp [processRecord]
    | falsy => simp [processRecord]
    | val gd =>
      rcases h : processGeomData env st.qgisGeomVar gd with ⟨q, out⟩
      cases out <;> simp [processRecord, h]

theorem processRecord_emitted (env : GeomEnv) (st : JobState) (r : DownloadResult) :
    (processRecord env st r).emitted = st.emitted ∨
    ∃ g, (processRecord env st r).emitted = st.emitted ++ [(r.fidOf, g)] := by
  cases r with
  | fail fid msg => exact Or.inl rfl
  | ok fid payload =>
    obtain ⟨gf⟩ := payload
    cases gf with
    | missing => exact Or.inl rfl
    | falsy => exact Or.inl rfl
    | val gd =>
      rcases h : processGeomData env st.qgisGeomVar gd with ⟨q, out⟩
      cases out with
      | attached g =>
        refine Or.inr ⟨g, ?_⟩
        simp [processRecord, h, DownloadResult.fidOf]
      | failed => exact Or.inl (by simp [processRecord, h])

/-! Structural lemmas about folding a list of results. -/

theorem foldRecords_frame (env : GeomEnv) (results : List DownloadResult) (st : JobState) :
    (results.foldl (processRecord env) st).calls = st.calls ∧
    (results.foldl (processRecord env) st).attempted = st.attempted ∧
    (results.foldl (processRecord env) st).progressTrace = st.progressTrace ∧
    (results.foldl (processRecord env) st).halted = st.halted ∧
    (results.foldl (processRecord env) st).canceledByUser = st.canceledByUser ∧
    (results.foldl (processRecord env) st).fatal = st.fatal := by
  induction results generalizing st with
  | nil => exact ⟨rfl, rfl, rfl, rfl, rfl, rfl⟩
  | cons r rs ih =>
    obtain ⟨h1, h2, h3, h4, h5, h6⟩ := processRecord_frame env st r
    obtain ⟨g1, g2, g3, g4, g5, g6⟩ := ih (processRecord env st r)
    exact ⟨g1.trans h1, g2.trans h2, g3.trans h3, g4.trans h4, g5.trans h5, g6.trans h6⟩

theorem foldRecords_outcome_count (env : GeomEnv) (results : List DownloadResult)
    (st : JobState) :
    (results.foldl (processRecord env) st).emitted.length
        + (results.foldl (processRecord env) st).error_count
      = st.emitted.length + st.error_count + results.length := by
  induction results generalizing st with
  | nil => rfl
  | cons r rs ih =>
    have h := processRecord_outcome_count env st r
    have h2 := ih (processRecord env st r)
    simp only [List.foldl_cons, List.length_cons] at *
    omega

theorem foldRecords_error_mono (env : GeomEnv) (results : List DownloadResult)
    (st : JobState) :
    st.error_count ≤ (results.foldl (processRecord env) st).error_count := by
  induction results generalizing st with
  | nil => exact Nat.le_refl _
  | cons r rs ih =>
    exact Nat.le_trans (processRecord_error_mono env st r) (ih (processRecord env st r))

theorem foldRecords_emitted (env : GeomEnv) (results : List DownloadResult) (st : JobState) :
    ∃ t, (results.foldl (processRecord env) st).emitted = st.emitted ++ t
      ∧ t.length ≤ results.length
      ∧ ∀ e ∈ t, e.1 ∈ results.map DownloadResult.fidOf := by
  induction results generalizing st with
  | nil => exact ⟨[], by simp, by simp, by simp⟩
  | cons r rs ih =>
    obtain ⟨t, ht, hlen, hmem⟩ := ih (processRecord env st r)
    rcases processRecord_emitted env st r with h | ⟨g, h⟩
    · refine ⟨t, by simpa [h] using ht, by simpa using Nat.le_succ_of_le hlen, ?_⟩
      intro e he
      exact List.mem_cons_of_mem _ (hmem e he)
    · refine ⟨(r.fidOf, g) :: t, ?_, by simpa using hlen, ?_⟩
      · rw [List.foldl_cons, ht, h, List.append_assoc]
        rfl
      · intro e he
        rcases List.mem_cons.mp he with h1 | h1
        · subst h1
          exact List.mem_cons_self _ _
        · exact List.mem_cons_of_mem _ (hmem e h1)

/-! Structural lemmas about one batch. -/

theorem processBatch_calls (env : GeomEnv) (resp : String → HttpOutcome)
    (st : JobState) (batch : List String) :
    (processBatch env resp st batch).calls = st.calls ++ batch :=
  (foldRecords_frame env _ _).1

theorem processBatch_attempted (env : GeomEnv) (resp : String → HttpOutcome)
    (st : JobState) (batch : List String) :
    (processBatch env resp st batch).attempted = st.attempted ++ batch :=
  (foldRecords_frame env _ _).2.1

theorem processBatch_frame (env : GeomEnv) (resp : String → HttpOutcome)
    (st : JobState) (batch : List String) :
    (processBatch env resp st batch).progressTrace = st.progressTrace ∧
    (processBatch env resp st batch).halted = st.halted ∧
    (processBatch env resp st batch).canceledByUser = st.canceledByUser ∧
    (processBatch env resp st batch).fatal = st.fatal :=
  (foldRecords_frame env _ _).2.2

theorem processBatch_error_mono (env : GeomEnv) (resp : String → HttpOutcome)
    (st : JobState) (batch : List String) :
    st.error_count ≤ (processBatch env resp st batch).error_count := by
  have h := foldRecords_error_mono env (batch.map (download_parcel_info resp))
    { st with calls := st.calls ++ batch, attempted := st.attempted ++ batch }
  simpa [processBatch] using h

theorem processBatch_emitted (env : GeomEnv) (resp : String → HttpOutcome)
    (st : JobState) (batch : List String) :
    ∃ t, (processBatch env resp st batch).emitted = st.emitted ++ t
      ∧ t.length ≤ batch.length
      ∧ ∀ e ∈ t, e.1 ∈ batch := by
  obtain ⟨t, ht, hlen, hmem⟩ := foldRecords_emitted env (batch.map (download_parcel_info resp))
    { st with calls := st.calls ++ batch, attempted := st.attempted ++ batch }
  refine ⟨t, ht, by simpa using hlen, ?_⟩
  intro e he
  have h := hmem e he
  rw [List.map_map] at h
  simpa [Function.comp, download_fidOf] using h

/-! Structural lemmas about the batch loop. -/

theorem stepBatch_of_halted (env : GeomEnv) (resp : String → HttpOutcome)
    (canceled : Nat → Bool) (fids : List String) (B maxErr : Nat) (st : JobState) (i : Nat)
    (h : st.halted = true) :
    stepBatch env resp canceled fids B maxErr st i = st := by
  simp [stepBatch, h]

theorem stepBatch_of_canceled (env : GeomEnv) (resp : String → HttpOutcome)
    (canceled : Nat → Bool) (fids : List String) (B maxErr : Nat) (st : JobState) (i : Nat)
    (h : st.halted = false) (hc : canceled i = true) :
    stepBatch env resp canceled fids B maxErr st i
      = { st with halted := true, canceledByUser := true } := by
  simp [stepBatch, h, hc]

theorem stepBatch_of_budget (env : GeomEnv) (resp : String → HttpOutcome)
    (canceled : Nat → Bool) (fids : List String) (B maxErr : Nat) (st : JobState) (i : Nat)
    (h : st.halted = false) (hc : canceled i = false) (hb : maxErr < st.error_count) :
    stepBatch env resp canceled fids B maxErr st i
      = { st with halted := true, fatal := true } := by
  simp [stepBatch, h, hc, hb]

theorem stepBatch_of_live (env : GeomEnv) (resp : String → HttpOutcome)
    (canceled : Nat → Bool) (fids : List String) (B maxErr : Nat) (st : JobState) (i : Nat)
    (h : st.halted = false) (hc : canceled i = false) (hb : st.error_count ≤ maxErr) :
    stepBatch env resp canceled fids B maxErr st i
      = (fun st1 => { st1 with progressTrace := st1.progressTrace ++
            [⟨min ((i + 1) * B) fids.length, fids.length, st1.processed_count⟩] })
          (processBatch env resp st (batchSlice fids B i)) := by
  simp [stepBatch, h, hc, Nat.not_lt.mpr hb]

theorem runUpTo_zero (env : GeomEnv) (resp : String → HttpOutcome) (canceled : Nat → Bool)
    (fids : List String) (B maxErr : Nat) :
    runUpTo env resp canceled fids B maxErr 0 = {} := rfl

theorem runUpTo_succ (env : GeomEnv) (resp : String → HttpOutcome) (canceled : Nat → Bool)
    (fids : List String) (B maxErr : Nat) (k : Nat) :
    runUpTo env resp canceled fids B maxErr (k + 1)
      = stepBatch env resp canceled fids B maxErr
          (runUpTo env resp canceled fids B maxErr k) k := by
  unfold runUpTo
  rw [List.range_succ, List.foldl_append]
  rfl

theorem runUpTo_of_halted (env : GeomEnv) (resp : String → HttpOutcome) (canceled : Nat → Bool)
    (fids : List String) (B maxErr : Nat) (m n : Nat) (hmn : m ≤ n)
    (h : (runUpTo env resp canceled fids B maxErr m).halted = true) :
    runUpTo env resp canceled fids B maxErr n = runUpTo env resp canceled fids B maxErr m := by
  induction n with
  | zero =>
    have := Nat.le_zero.mp hmn
    subst this
    rfl
  | succ n ih =>
    rcases Nat.lt_or_ge m (n + 1) with hlt | hge
    · have hmle : m ≤ n := Nat.lt_succ_iff.mp hlt
      rw [runUpTo_succ, ih hmle, stepBatch_of_halted _ _ _ _ _ _ _ _ h]
    · have : m = n + 1 := Nat.le_antisymm hmn hge
      subst this
      rfl

theorem runUpTo_error_mono (env : GeomEnv) (resp : String → HttpOutcome) (canceled : Nat → Bool)
    (fids : List String) (B maxErr : Nat) (j k : Nat) (hjk : j ≤ k) :
    (runUpTo env resp canceled fids B maxErr j).error_count
      ≤ (runUpTo env resp canceled fids B maxErr k).error_count := by
  induction k with
  | zero =>
    have := Nat.le_zero.mp hjk
    subst this
    exact Nat.le_refl _
  | succ k ih =>
    rcases Nat.lt_or_ge j (k + 1) with hlt | hge
    · refine Nat.le_trans (ih (Nat.lt_succ_iff.mp hlt)) ?_
      rw [runUpTo_succ]
      set st := runUpTo env resp canceled fids B maxErr k with hst
      by_cases h1 : st.halted
      · rw [stepBatch_of_halted _ _ _ _ _ _ _ _ h1]
      · have h1' : st.halted = false := by simpa using h1
        by_cases h2 : canceled k
        · rw [stepBatch_of_canceled _ _ _ _ _ _ _ _ h1' h2]
        · have h2' : canceled k = false := by simpa using h2
          by_cases h3 : maxErr < st.error_count
          · rw [stepBatch_of_budget _ _ _ _ _ _ _ _ h1' h2' h3]
          · rw [stepBatch_of_live _ _ _ _ _ _ _ _ h1' h2' (Nat.not_lt.mp h3)]
            exact processBatch_error_mono env resp st (batchSlice fids B k)
    · have : j = k + 1 := Nat.le_antisymm hjk hge
      subst this
      exact Nat.le_refl _

/-! Arithmetic of the batch partition. -/

theorem lt_numBatches_iff (B : Nat) (hB : 0 < B) (N i : Nat) :
    i < numBatches N B ↔ i * B < N := by
  have hdiv : i + 1 ≤ (N + B - 1) / B ↔ (i + 1) * B ≤ N + B - 1 :=
    Nat.le_div_iff_mul_le hB
  have hmul : (i + 1) * B = i * B + B := by ring
  unfold numBatches
  rw [Nat.lt_iff_add_one_le, hdiv]
  omega

theorem numBatches_zero (B : Nat) : numBatches 0 B = 0 := by
  unfold numBatches
  cases B with
  | zero => rfl
  | succ b => exact Nat.div_eq_of_lt (by omega)

theorem numBatches_one (B N : Nat) (hB : 0 < B) (h1 : 1 ≤ N) (h2 : N ≤ B) :
    numBatches N B = 1 := by
  unfold numBatches
  refine Nat.le_antisymm ?_ ?_
  · have hlt : (N + B - 1) / B < 2 ↔ N + B - 1 < 2 * B := Nat.div_lt_iff_lt_mul hB
    have := hlt.mpr (by omega)
    omega
  · have hle : 1 ≤ (N + B - 1) / B ↔ 1 * B ≤ N + B - 1 := Nat.le_div_iff_mul_le hB
    have := hle.mpr (by omega)
    omega

theorem numBatches_step (B N : Nat) (hB : 0 < B) (h : B < N) :
    numBatches N B = numBatches (N - B) B + 1 := by
  unfold numBatches
  have h1 : N + B - 1 = (N - B + B - 1) + B := by omega
  rw [h1, Nat.add_div_right _ hB]

theorem batchSlice_shift (fids : List String) (B i : Nat) :
    batchSlice fids B (i + 1) = batchSlice (fids.drop B) B i := by
  unfold batchSlice
  rw [List.drop_drop]
  congr 1
  rw [Nat.succ_mul, Nat.add_comm]

theorem flatten_batchSlices (B : Nat) (hB : 0 < B) :
    ∀ (N : Nat) (fids : List String), fids.length = N →
      ((List.range (numBatches N B)).map (batchSlice fids B)).flatten = fids := by
  intro N
  induction N using Nat.strong_induction_on with
  | _ N ih =>
    intro fids hlen
    by_cases hN : N = 0
    · subst hN
      rw [numBatches_zero]
      simp only [List.range_zero, List.map_nil, List.flatten_nil]
      exact (List.length_eq_zero.mp hlen).symm
    · by_cases hNB : N ≤ B
      · rw [numBatches_one B N hB (by omega) hNB]
        have h0 : batchSlice fids B 0 = fids.take B := by
          simp [batchSlice]
        have hr : List.range 1 = [0] := rfl
        simp only [hr, List.map_cons, List.map_nil, List.flatten_cons,
          List.flatten_nil, List.append_nil, h0]
        exact List.take_of_length_le (by omega)
      · have hBN : B < N := by omega
        rw [numBatches_step B N hB hBN, List.range_succ_eq_map]
        rw [List.map_cons, List.flatten_cons, List.map_map]
        have hshift : List.map (batchSlice fids B ∘ Nat.succ) (List.range (numBatches (N - B) B))
            = List.map (batchSlice (fids.drop B) B) (List.range (numBatches (N - B) B)) := by
          refine List.map_congr_left ?_
          intro i _
          exact batchSlice_shift fids B i
        rw [hshift, ih (N - B) (by omega) (fids.drop B) (by rw [List.length_drop, hlen])]
        have h0 : batchSlice fids B 0 = fids.take B := by
          simp [batchSlice]
        rw [h0, List.take_append_drop]

theorem batchSlice_length (fids : List String) (B i : Nat) :
    (batchSlice fids B i).length = min B (fids.length - i * B) := by
  simp [batchSlice]

theorem batchSlice_nonempty (fids : List String) (B i : Nat) (hB : 0 < B)
    (hi : i < numBatches fids.length B) :
    batchSlice fids B i ≠ [] := by
  have h1 : i * B < fids.length := (lt_numBatches_iff B hB fids.length i).mp hi
  have h2 := batchSlice_length fids B i
  intro hcontra
  rw [hcontra] at h2
  simp at h2
  omega

theorem batchSlice_full (fids : List String) (B i : Nat) (hB : 0 < B)
    (hi : i + 1 < numBatches fids.length B) :
    (batchSlice fids B i).length = B := by
  have h1 : (i + 1) * B < fids.length := (lt_numBatches_iff B hB fids.length (i + 1)).mp hi
  have h2 : (i + 1) * B = i * B + B := by ring
  rw [batchSlice_length]
  omega

/-! Characterization of a run whose boundary checks all pass. -/

theorem runUpTo_complete (env : GeomEnv) (resp : String → HttpOutcome) (canceled : Nat → Bool)
    (fids : List String) (B maxErr : Nat) (n : Nat)
    (hc : ∀ j, j < n → canceled j = false)
    (hb : ∀ j, j < n → (runUpTo env resp canceled fids B maxErr j).error_count ≤ maxErr) :
    (runUpTo env resp canceled fids B maxErr n).halted = false ∧
    (runUpTo env resp canceled fids B maxErr n).canceledByUser = false ∧
    (runUpTo env resp canceled fids B maxErr n).fatal = false ∧
    (runUpTo env resp canceled fids B maxErr n).calls
      = ((List.range n).map (batchSlice fids B)).flatten ∧
    (runUpTo env resp canceled fids B maxErr n).attempted
      = (runUpTo env resp canceled fids B maxErr n).calls ∧
    (runUpTo env resp canceled fids B maxErr n).progressTrace.map
        (fun r => (r.batchEnd, r.total))
      = (List.range n).map (fun i => (min ((i + 1) * B) fids.length, fids.length)) := by
  induction n with
  | zero =>
    refine ⟨rfl, rfl, rfl, by simp [runUpTo_zero], rfl, by simp [runUpTo_zero]⟩
  | succ k ih =>
    obtain ⟨ih1, ih2, ih3, ih4, ih5, ih6⟩ :=
      ih (fun j hj => hc j (by omega)) (fun j hj => hb j (by omega))
    have hck : canceled k = false := hc k (by omega)
    have hbk : (runUpTo env resp canceled fids B maxErr k).error_count ≤ maxErr :=
      hb k (by omega)
    rw [runUpTo_succ, stepBatch_of_live _ _ _ _ _ _ _ _ ih1 hck hbk]
    obtain ⟨hp1, hp2, hp3, hp4⟩ := processBatch_frame env resp
      (runUpTo env resp canceled fids B maxErr k) (batchSlice fids B k)
    refine ⟨?_, ?_, ?_, ?_, ?_, ?_⟩
    · exact hp2.trans ih1
    · exact hp3.trans ih2
    · exact hp4.trans ih3
    · show (processBatch env resp _ _).calls = _
      rw [List.range_succ, List.map_append, List.flatten_append]
      rw [processBatch_calls, ih4]
      simp
    · show (processBatch env resp _ _).attempted = (processBatch env resp _ _).calls
      rw [processBatch_calls, processBatch_attempted, ih5]
    · show ((processBatch env resp _ _).progressTrace ++ _).map _ = _
      rw [List.map_append, hp1, ih6, List.range_succ, List.map_append]
      rfl

/-- Invariant: every emitted feature belongs to an attempted identifier,
and at most one feature is emitted per attempted identifier. -/
theorem runUpTo_emitted_attempted (env : GeomEnv) (resp : String → HttpOutcome)
    (canceled : Nat → Bool) (fids : List String) (B maxErr : Nat) (n : Nat) :
    (∀ e ∈ (runUpTo env resp canceled fids B maxErr n).emitted,
        e.1 ∈ (runUpTo env resp canceled fids B maxErr n).attempted) ∧
    (runUpTo env resp canceled fids B maxErr n).emitted.length
      ≤ (runUpTo env resp canceled fids B maxErr n).attempted.length := by
  induction n with
  | zero =>
    constructor
    · intro e he
      cases he
    · exact Nat.le_refl _
  | succ k ih =>
    rw [runUpTo_succ]
    set st := runUpTo env resp canceled fids B maxErr k with hst
    by_cases h1 : st.halted
    · rw [stepBatch_of_halted _ _ _ _ _ _ _ _ h1]
      exact ih
    · have h1' : st.halted = false := by simpa using h1
      by_cases h2 : canceled k
      · rw [stepBatch_of_canceled _ _ _ _ _ _ _ _ h1' h2]
        exact ih
      · have h2' : canceled k = false := by simpa using h2
        by_cases h3 : maxErr < st.error_count
        · rw [stepBatch_of_budget _ _ _ _ _ _ _ _ h1' h2' h3]
          exact ih
        · rw [stepBatch_of_live _ _ _ _ _ _ _ _ h1' h2' (Nat.not_lt.mp h3)]
          obtain ⟨t, ht, hlen, hmem⟩ := processBatch_emitted env resp st (batchSlice fids B k)
          have hatt := processBatch_attempted env resp st (batchSlice fids B k)
          constructor
          · intro e he
            show e.1 ∈ (processBatch env resp st (batchSlice fids B k)).attempted
            rw [hatt]
            have he2 : e ∈ st.emitted ++ t := by
              rw [← ht]
              exact he
            rcases List.mem_append.mp he2 with h | h
            · exact List.mem_append_left _ (ih.1 e h)
            · exact List.mem_append_right _ (hmem e h)
          · show (processBatch env resp st (batchSlice fids B k)).emitted.length
              ≤ (processBatch env resp st (batchSlice fids B k)).attempted.length
            rw [hatt, ht, List.length_append, List.length_append]
            have := ih.2
            omega

/-! Helper lemmas for the geometry claims. -/

theorem jsonValidityGate_attached (q0 q : Option GeomVal) (g : GeomVal)
    (h : jsonValidityGate q0 = (q, GeomOutcome.attached g)) :
    q0 = some g ∧ q = some g ∧ g.isEmpty = false ∧ g.isGeosValid = true := by
  cases q0 with
  | none => simp [jsonValidityGate] at h
  | some g0 =>
    by_cases hc : (!g0.isEmpty && g0.isGeosValid) = true
    · rw [jsonValidityGate, if_pos hc] at h
      obtain ⟨h1, h2⟩ := Prod.mk.injEq .. ▸ h
      cases h2
      simp only [Bool.and_eq_true, Bool.not_eq_true'] at hc
      exact ⟨rfl, h1.symm, hc.1, hc.2⟩
    · rw [jsonValidityGate, if_neg hc] at h
      cases h

theorem fresh_gate_attached (g0 : GeomVal) (c : Bool) (q : Option GeomVal) (g : GeomVal)
    (h : ((some g0 : Option GeomVal), if c then GeomOutcome.attached g0 else GeomOutcome.failed)
        = (q, GeomOutcome.attached g)) :
    g0 = g ∧ q = some g ∧ c = true := by
  by_cases hc : c = true
  · rw [if_pos hc, Prod.mk.injEq] at h
    obtain ⟨h1, h2⟩ := h
    cases h2
    exact ⟨rfl, h1.symm, hc⟩
  · rw [if_neg hc, Prod.mk.injEq] at h
    cases h.2

theorem processRecord_geomFailed (env : GeomEnv) (st : JobState) (fid : String)
    (payload : Payload) (q2 : Option GeomVal) (gd2 : GeomData)
    (hg : payload.geom = GeomField.val gd2)
    (hf : processGeomData env st.qgisGeomVar gd2 = (q2, GeomOutcome.failed)) :
    processRecord env st (DownloadResult.ok fid payload)
      = { st with qgisGeomVar := q2, error_count := st.error_count + 1 } := by
  obtain ⟨gf⟩ := payload
  simp only at hg
  subst hg
  simp [processRecord, hf]

/-! Claim theorems. -/

/-- Claim C7: when the region query legitimately returns an empty
identifier list, the job returns immediately with zero outcomes, issues
no network calls to the detail endpoint, and treats the empty list as a
normal result (no fatal error, no cancellation), per the early return of
lines 460 to 463. -/
theorem C7_empty_list_returns_immediately (env : GeomEnv) (resp : String → HttpOutcome)
    (canceled : Nat → Bool) :
    (fetchJob env resp canceled []).calls = []
    ∧ (fetchJob env resp canceled []).emitted = []
    ∧ (fetchJob env resp canceled []).error_count = 0
    ∧ (fetchJob env resp canceled []).fatal = false
    ∧ (fetchJob env resp canceled []).canceledByUser = false :=
  ⟨rfl, rfl, rfl, rfl, rfl⟩

/-- Claim C10: a detail record fetched with success status whose payload
lacks a `geom` key or carries a falsy `geom` value is counted as exactly
one failure against the error budget counter `error_count` (the counter
compared to `max_errors` on line 546) and no feature is emitted to the
sink for it; every other state component is unchanged (lines 741 to 746). -/
theorem C10_missing_geom_counts_one_error (env : GeomEnv) (st : JobState) (fid : String)
    (payload : Payload)
    (h : payload.geom = GeomField.missing ∨ payload.geom = GeomField.falsy) :
    processRecord env st (DownloadResult.ok fid payload)
      = { st with error_count := st.error_count + 1 } := by
  obtain ⟨gf⟩ := payload
  simp only at h
  rcases h with h | h <;> subst h <;> rfl

theorem C10_witness :
    ((⟨GeomField.missing⟩ : Payload).geom = GeomField.missing
      ∨ (⟨GeomField.missing⟩ : Payload).geom = GeomField.falsy)
    ∧ processRecord envOkValid {} (DownloadResult.ok ("n1") noGeomPayload)
        = { ({} : JobState) with error_count := 1 } :=
  ⟨Or.inl rfl,
    C10_missing_geom_counts_one_error envOkValid {} ("n1") noGeomPayload (Or.inl rfl)⟩

/-- Claim C3 (failing input): the source intends a GeoJSON shape whose
rings all have fewer than 4 points to fail normalization, be counted as
an error and not be emitted; but because the guard on line 705 tests
`'qgis_geom' in locals()` against a function-scoped variable, the
geometry left in `qgis_geom` by an earlier record of the same job
passes the gate and is attached.  Here parcel p11 (whose only ring has
three points, processed in the second batch after ten successful
parcels) is emitted with the stale geometry of an earlier parcel and the
error counter stays at zero. -/
theorem C3_stale_geometry_emitted :
    ("p11", (⟨false, true⟩ : GeomVal))
        ∈ (fetchJob envOkValid respStale (fun _ => false) fidsEleven).emitted
    ∧ (fetchJob envOkValid respStale (fun _ => false) fidsEleven).error_count = 0 := by
  constructor <;> decide

/-- Claim C4 (counterexample): the claim states every attached geometry
passes the validity check of being non-empty AND simple (GEOS-valid).
On the well-known-text branch (lines 721 to 726) the source only checks
non-emptiness: a WKT parse result that is not GEOS-valid is attached and
the feature is emitted. -/
theorem C4_counterexample :
    processGeomData envOkInvalid none (GeomData.str ("W"))
      = (some ⟨false, false⟩, GeomOutcome.attached ⟨false, false⟩)
    ∧ (⟨false, false⟩ : GeomVal).isGeosValid = false
    ∧ (processRecord envOkInvalid {}
        (DownloadResult.ok ("w1") ⟨GeomField.val (GeomData.str ("W"))⟩)).emitted
      = [("w1", ⟨false, false⟩)] := by
  refine ⟨by decide, by decide, by decide⟩

/-- Claim C4 (amended): a geometry constructed from a GeoJSON dict or
from a hex well-known-binary string is attached only if it is non-empty
and GEOS-valid; a geometry parsed from a well-known-text string is
attached if it is non-empty (the GEOS validity check is not applied on
that branch); and in every branch a candidate that fails its check is a
normalization failure for that record — one error, no emission — never a
partially accepted result. -/
theorem C4_validity_amended (env : GeomEnv) (qvar : Option GeomVal) (gd : GeomData)
    (q : Option GeomVal) (g : GeomVal)
    (hatt : processGeomData env qvar gd = (q, GeomOutcome.attached g)) :
    g.isEmpty = false
    ∧ ((∃ c, gd = GeomData.jsonPoly c) ∨ (∃ c, gd = GeomData.jsonMulti c)
        ∨ (∃ s, gd = GeomData.str s ∧ looksHexWkb s = true) → g.isGeosValid = true)
    ∧ (∀ st fid payload q2 gd2, payload.geom = GeomField.val gd2 →
        processGeomData env st.qgisGeomVar gd2 = (q2, GeomOutcome.failed) →
        processRecord env st (DownloadResult.ok fid payload)
          = { st with qgisGeomVar := q2, error_count := st.error_count + 1 }) := by
  refine ⟨?_, ?_, fun st fid payload q2 gd2 hg hf =>
    processRecord_geomFailed env st fid payload q2 gd2 hg hf⟩
  · cases gd with
    | jsonPoly c =>
      rw [processGeomData] at hatt
      by_cases hc : c.isEmpty
      · rw [if_pos hc] at hatt
        cases hatt
      · rw [if_neg hc] at hatt
        exact (jsonValidityGate_attached _ _ _ hatt).2.2.1
    | jsonMulti c =>
      rw [processGeomData] at hatt
      by_cases hc : c.isEmpty
      · rw [if_pos hc] at hatt
        cases hatt
      · rw [if_neg hc] at hatt
        exact (jsonValidityGate_attached _ _ _ hatt).2.2.1
    | jsonOtherType => cases hatt
    | nonGeoValue => cases hatt
    | str s =>
      rw [processGeomData] at hatt
      by_cases hx : looksHexWkb s = true
      · rw [if_pos hx] at hatt
        cases hd : hexDecode s.data with
        | none =>
          rw [hd] at hatt
          cases hatt
        | some bs =>
          rw [hd] at hatt
          obtain ⟨hg, hq, hc⟩ := fresh_gate_attached (env.fromWkb bs)
            (!(env.fromWkb bs).isEmpty && (env.fromWkb bs).isGeosValid) q g hatt
          subst hg
          simp only [Bool.and_eq_true, Bool.not_eq_true'] at hc
          exact hc.1
      · rw [if_neg hx] at hatt
        obtain ⟨hg, hq, hc⟩ := fresh_gate_attached (env.fromWkt s)
          (!(env.fromWkt s).isEmpty) q g hatt
        subst hg
        simpa using hc
  · intro hshape
    cases gd with
    | jsonPoly c =>
      rw [processGeomData] at hatt
      by_cases hc : c.isEmpty
      · rw [if_pos hc] at hatt
        cases hatt
      · rw [if_neg hc] at hatt
        exact (jsonValidityGate_attached _ _ _ hatt).2.2.2
    | jsonMulti c =>
      rw [processGeomData] at hatt
      by_cases hc : c.isEmpty
      · rw [if_pos hc] at hatt
        cases hatt
      · rw [if_neg hc] at hatt
        exact (jsonValidityGate_attached _ _ _ hatt).2.2.2
    | jsonOtherType => cases hatt
    | nonGeoValue => cases hatt
    | str s =>
      rcases hshape with ⟨c, hcon⟩ | ⟨c, hcon⟩ | ⟨s2, hcon, hhex⟩
      · cases hcon
      · cases hcon
      · cases hcon
        rw [processGeomData, if_pos hhex] at hatt
        cases hd : hexDecode s.data with
        | none =>
          rw [hd] at hatt
          cases hatt
        | some bs =>
          rw [hd] at hatt
          obtain ⟨hg, hq, hc⟩ := fresh_gate_attached (env.fromWkb bs)
            (!(env.fromWkb bs).isEmpty && (env.fromWkb bs).isGeosValid) q g hatt
          subst hg
          simp only [Bool.and_eq_true, Bool.not_eq_true'] at hc
          exact hc.2

theorem C4_witness :
    processGeomData envOkValid none (GeomData.str ("P"))
      = (some ⟨false, true⟩, GeomOutcome.attached ⟨false, true⟩)
    ∧ (⟨false, true⟩ : GeomVal).isEmpty = false :=
  ⟨by decide,
    (C4_validity_amended envOkValid none (GeomData.str ("P"))
      (some ⟨false, true⟩) ⟨false, true⟩ (by decide)).1⟩

/-- Claim C5: a string-valued raw geometry whose length exceeds 20 and
whose characters are all hex digits is decoded as hex bytes and handed
to the well-known-binary parser; every other string is handed directly
to the well-known-text parser (lines 711 to 726).  The first two
conjuncts state the exact branch results; the last two state that the
hex route consults only the binary parser of the geometry engine and the
other route only the text parser. -/
theorem C5_string_geometry_routing (env : GeomEnv) (qvar : Option GeomVal) (s : String) :
    (looksHexWkb s = true →
      processGeomData env qvar (GeomData.str s)
        = match hexDecode s.data with
          | none => (qvar, GeomOutcome.failed)
          | some bs =>
            (some (env.fromWkb bs),
              if !(env.fromWkb bs).isEmpty && (env.fromWkb bs).isGeosValid
              then GeomOutcome.attached (env.fromWkb bs) else GeomOutcome.failed))
    ∧ (looksHexWkb s = false →
      processGeomData env qvar (GeomData.str s)
        = (some (env.fromWkt s),
            if !(env.fromWkt s).isEmpty then GeomOutcome.attached (env.fromWkt s)
            else GeomOutcome.failed))
    ∧ (looksHexWkb s = true → ∀ env2 : GeomEnv, env2.fromWkb = env.fromWkb →
        processGeomData env2 qvar (GeomData.str s) = processGeomData env qvar (GeomData.str s))
    ∧ (looksHexWkb s = false → ∀ env2 : GeomEnv, env2.fromWkt = env.fromWkt →
        processGeomData env2 qvar (GeomData.str s) = processGeomData env qvar (GeomData.str s)) := by
  refine ⟨?_, ?_, ?_, ?_⟩
  · intro hx
    rw [processGeomData, if_pos hx]
  · intro hx
    rw [processGeomData, if_neg (by simp [hx])]
  · intro hx env2 hsame
    rw [processGeomData, if_pos hx, processGeomData, if_pos hx, hsame]
  · intro hx env2 hsame
    rw [processGeomData, if_neg (by simp [hx]), processGeomData, if_neg (by simp [hx]), hsame]

theorem C5_witness :
    looksHexWkb ("00112233445566778899AA") = true
    ∧ looksHexWkb ("P") = false
    ∧ processGeomData envOkValid none (GeomData.str ("00112233445566778899AA"))
        = (some ⟨false, true⟩, GeomOutcome.attached ⟨false, true⟩) := by
  refine ⟨by decide, by decide, ?_⟩
  have h := (C5_string_geometry_routing envOkValid none ("00112233445566778899AA")).1 (by decide)
  rw [h]
  decide

/-- Claim C2: for every identifier list of size N and batch size B > 0
the loop of lines 540 to 556 partitions the list into exactly ceil(N/B)
consecutive batches whose in-order concatenation is the original list;
every batch is nonempty with at most B elements and all but the last
have exactly B; and in a run whose failures stay within the budget the
ordered network-call trace is exactly that concatenation — batch i+1 is
processed strictly after batch i in the sequential fold. -/
theorem C2_batch_partitioning (env : GeomEnv) (resp : String → HttpOutcome)
    (fids : List String) (B maxErr : Nat) (hB : 0 < B)
    (hbud : (runJob env resp (fun _ => false) fids B maxErr).error_count ≤ maxErr) :
    numBatches fids.length B = fids.length ⌈/⌉ B
    ∧ ((List.range (numBatches fids.length B)).map (batchSlice fids B)).flatten = fids
    ∧ (∀ i, i < numBatches fids.length B →
        batchSlice fids B i ≠ [] ∧ (batchSlice fids B i).length ≤ B)
    ∧ (∀ i, i + 1 < numBatches fids.length B → (batchSlice fids B i).length = B)
    ∧ (runJob env resp (fun _ => false) fids B maxErr).calls
        = ((List.range (numBatches fids.length B)).map (batchSlice fids B)).flatten := by
  have hcomplete := runUpTo_complete env resp (fun _ => false) fids B maxErr
    (numBatches fids.length B) (fun j _ => rfl)
    (fun j hj => Nat.le_trans
      (runUpTo_error_mono env resp (fun _ => false) fids B maxErr j
        (numBatches fids.length B) (Nat.le_of_lt hj)) hbud)
  refine ⟨?_, flatten_batchSlices B hB fids.length fids rfl, ?_, ?_, hcomplete.2.2.2.1⟩
  · unfold numBatches
    exact (Nat.ceilDiv_eq_add_pred_div _ _).symm
  · intro i hi
    refine ⟨batchSlice_nonempty fids B i hB hi, ?_⟩
    rw [batchSlice_length]
    exact Nat.min_le_left _ _
  · intro i hi
    exact batchSlice_full fids B i hB hi

theorem C2_witness :
    (runJob envOkValid respAllGood (fun _ => false) fidsEleven 10 1).error_count ≤ 1
    ∧ (runJob envOkValid respAllGood (fun _ => false) fidsEleven 10 1).calls
        = ((List.range (numBatches fidsEleven.length 10)).map (batchSlice fidsEleven 10)).flatten :=
  ⟨by decide,
    (C2_batch_partitioning envOkValid respAllGood fidsEleven 10 1
      (by decide) (by decide)).2.2.2.2⟩

/-- Claim C1 (counterexample): with eleven identifiers the budget of
line 471 is min(50, 11 // 10) = 1; p01 fails in batch one (counter 1,
not above the budget at the second boundary), p11 fails in batch two,
driving the counter to 2 > 1 — but batch two was the last, no boundary
check runs again, and no fatal job-level error is reported, contrary to
the claim that exceeding the budget reports a fatal error. -/
theorem C1_counterexample :
    maxErrorsFor fidsEleven.length = 1
    ∧ (fetchJob envOkValid respBudget (fun _ => false) fidsEleven).error_count = 2
    ∧ (fetchJob envOkValid respBudget (fun _ => false) fidsEleven).fatal = false :=
  ⟨by decide, by decide, by decide⟩

/-- Claim C1 (amended): in a job over a non-empty identifier list with
the budget min(50, total // 10) of line 471, if the running failure
counter first exceeds the budget during batch k, then no batch after k
is started (the ordered network-call trace covers exactly batches 0..k),
the result set contains outcomes only for attempted identifiers, and a
fatal job-level error is reported provided at least one batch remained
to be started — the budget check of line 546 runs only at batch
boundaries, so a budget exceeded during the final batch ends the job
without a fatal report. -/
theorem C1_error_budget_aborts (env : GeomEnv) (resp : String → HttpOutcome)
    (canceled : Nat → Bool) (fids : List String) (B k : Nat)
    (hB : 0 < B) (hne : fids ≠ [])
    (hcanc : ∀ i, canceled i = false)
    (hk : k < numBatches fids.length B)
    (hupto : (runUpTo env resp canceled fids B (maxErrorsFor fids.length) k).error_count
        ≤ maxErrorsFor fids.length)
    (hcross : maxErrorsFor fids.length
        < (runUpTo env resp canceled fids B (maxErrorsFor fids.length) (k + 1)).error_count) :
    (runJob env resp canceled fids B (maxErrorsFor fids.length)).calls
        = ((List.range (k + 1)).map (batchSlice fids B)).flatten
    ∧ (runJob env resp canceled fids B (maxErrorsFor fids.length)).attempted
        = (runJob env resp canceled fids B (maxErrorsFor fids.length)).calls
    ∧ (∀ e ∈ (runJob env resp canceled fids B (maxErrorsFor fids.length)).emitted,
        e.1 ∈ (runJob env resp canceled fids B (maxErrorsFor fids.length)).attempted)
    ∧ (k + 1 < numBatches fids.length B →
        (runJob env resp canceled fids B (maxErrorsFor fids.length)).fatal = true) := by
  have hb_upto : ∀ j, j < k + 1 →
      (runUpTo env resp canceled fids B (maxErrorsFor fids.length) j).error_count
        ≤ maxErrorsFor fids.length := by
    intro j hj
    exact Nat.le_trans
      (runUpTo_error_mono env resp canceled fids B (maxErrorsFor fids.length) j k (by omega))
      hupto
  obtain ⟨hh, hcb, hf, hcallsK, hattK, hprogK⟩ :=
    runUpTo_complete env resp canceled fids B (maxErrorsFor fids.length)
      (k + 1) (fun j _ => hcanc j) hb_upto
  rcases Nat.lt_or_ge (k + 1) (numBatches fids.length B) with hlt | hge
  · have hstep : runUpTo env resp canceled fids B (maxErrorsFor fids.length) (k + 2)
        = { runUpTo env resp canceled fids B (maxErrorsFor fids.length) (k + 1) with
            halted := true, fatal := true } := by
      rw [runUpTo_succ]
      exact stepBatch_of_budget _ _ _ _ _ _ _ _ hh (hcanc (k + 1)) hcross
    have hrun : runJob env resp canceled fids B (maxErrorsFor fids.length)
        = runUpTo env resp canceled fids B (maxErrorsFor fids.length) (k + 2) := by
      unfold runJob
      exact runUpTo_of_halted env resp canceled fids B (maxErrorsFor fids.length) (k + 2) _
        (by omega) (by rw [hstep])
    refine ⟨?_, ?_, ?_, fun _ => ?_⟩
    · rw [hrun, hstep]
      exact hcallsK
    · rw [hrun, hstep]
      exact hattK
    · exact (runUpTo_emitted_attempted env resp canceled fids B (maxErrorsFor fids.length) _).1
    · rw [hrun, hstep]
  · have hnb : numBatches fids.length B = k + 1 := by omega
    refine ⟨?_, ?_, ?_, fun hcon => absurd hcon (by omega)⟩
    · unfold runJob
      rw [hnb]
      exact hcallsK
    · unfold runJob
      rw [hnb]
      exact hattK
    · exact (runUpTo_emitted_attempted env resp canceled fids B (maxErrorsFor fids.length) _).1

theorem C1_witness :
    (runUpTo envOkValid (fun _ => HttpOutcome.timeout) (fun _ => false) fidsThree 1
        (maxErrorsFor fidsThree.length) 0).error_count ≤ maxErrorsFor fidsThree.length
    ∧ maxErrorsFor fidsThree.length
        < (runUpTo envOkValid (fun _ => HttpOutcome.timeout) (fun _ => false) fidsThree 1
            (maxErrorsFor fidsThree.length) 1).error_count
    ∧ (runJob envOkValid (fun _ => HttpOutcome.timeout) (fun _ => false) fidsThree 1
        (maxErrorsFor fidsThree.length)).fatal = true :=
  ⟨by decide, by decide,
    (C1_error_budget_aborts envOkValid (fun _ => HttpOutcome.timeout) (fun _ => false)
      fidsThree 1 0 (by decide) (by decide) (fun i => rfl) (by decide) (by decide)
      (by decide)).2.2.2 (by decide)⟩

/-- Claim C6: if the cooperative cancellation flag is observed set at
the boundary of batch k (lines 541 to 543) after passing the earlier
boundaries, the loop breaks there: the job yields a partial result
rather than an error (the cancellation message is pushed, no fatal
error is reported), the network-call trace contains exactly the batches
before k — no further network calls after the observation — and the
number of emitted features is at most the number of attempted
identifiers. -/
theorem C6_cancellation_partial_result (env : GeomEnv) (resp : String → HttpOutcome)
    (canceled : Nat → Bool) (fids : List String) (B maxErr k : Nat)
    (hk : k < numBatches fids.length B)
    (hcank : canceled k = true)
    (hbefore : ∀ j, j < k → canceled j = false)
    (hbud : (runUpTo env resp canceled fids B maxErr k).error_count ≤ maxErr) :
    (runJob env resp canceled fids B maxErr).canceledByUser = true
    ∧ (runJob env resp canceled fids B maxErr).fatal = false
    ∧ (runJob env resp canceled fids B maxErr).calls
        = ((List.range k).map (batchSlice fids B)).flatten
    ∧ (runJob env resp canceled fids B maxErr).attempted
        = (runJob env resp canceled fids B maxErr).calls
    ∧ (runJob env resp canceled fids B maxErr).emitted.length
        ≤ (runJob env resp canceled fids B maxErr).attempted.length := by
  have hb_upto : ∀ j, j < k →
      (runUpTo env resp canceled fids B maxErr j).error_count ≤ maxErr := by
    intro j hj
    exact Nat.le_trans
      (runUpTo_error_mono env resp canceled fids B maxErr j k (by omega)) hbud
  obtain ⟨hh, hcb, hf, hcallsK, hattK, hprogK⟩ :=
    runUpTo_complete env resp canceled fids B maxErr k hbefore hb_upto
  have hstep : runUpTo env resp canceled fids B maxErr (k + 1)
      = { runUpTo env resp canceled fids B maxErr k with
          halted := true, canceledByUser := true } := by
    rw [runUpTo_succ]
    exact stepBatch_of_canceled _ _ _ _ _ _ _ _ hh hcank
  have hrun : runJob env resp canceled fids B maxErr
      = runUpTo env resp canceled fids B maxErr (k + 1) := by
    unfold runJob
    exact runUpTo_of_halted env resp canceled fids B maxErr (k + 1) _ (by omega) (by rw [hstep])
  refine ⟨?_, ?_, ?_, ?_, ?_⟩
  · rw [hrun, hstep]
  · rw [hrun, hstep]
    exact hf
  · rw [hrun, hstep]
    exact hcallsK
  · rw [hrun, hstep]
    exact hattK
  · exact (runUpTo_emitted_attempted env resp canceled fids B maxErr _).2

theorem C6_witness :
    (runJob envOkValid respAllGood (fun i => i == 1) fidsTwenty 10 2).canceledByUser = true
    ∧ (runJob envOkValid respAllGood (fun i => i == 1) fidsTwenty 10 2).calls
        = ((List.range 1).map (batchSlice fidsTwenty 10)).flatten := by
  have h := C6_cancellation_partial_result envOkValid respAllGood (fun i => i == 1)
    fidsTwenty 10 2 1 (by decide) rfl
    (fun j hj => by
      have hj0 : j = 0 := by omega
      subst hj0
      rfl)
    (by decide)
  exact ⟨h.1, h.2.2.1⟩

/-- Claim C8: a detail request that times out or hits a connection error
makes exactly one attempt — `download_parcel_info` issues a single POST
whose outcome is `resp fid` and returns a failure tuple with no retry
loop (lines 530 to 533) — the outcome is recorded as a failure for that
identifier, the failure adds exactly one to the budget counter without
aborting the batch it occurred in (lines 759 to 763), and in a full run
within budget every identifier still appears in the ordered
network-call trace exactly as often as in the input list. -/
theorem C8_transport_failure_single_attempt (env : GeomEnv) (resp : String → HttpOutcome)
    (canceled : Nat → Bool) (fids : List String) (B maxErr : Nat) (fid : String)
    (st : JobState) (hB : 0 < B)
    (ht : resp fid = HttpOutcome.timeout)
    (hcanc : ∀ i, canceled i = false)
    (hbud : (runJob env resp canceled fids B maxErr).error_count ≤ maxErr) :
    download_parcel_info resp fid = DownloadResult.fail fid ("Request timeout")
    ∧ processRecord env st (download_parcel_info resp fid)
        = { st with error_count := st.error_count + 1 }
    ∧ (∀ resp2 fid2, resp2 fid2 = HttpOutcome.connError →
        download_parcel_info resp2 fid2 = DownloadResult.fail fid2 ("Connection error"))
    ∧ (runJob env resp canceled fids B maxErr).calls = fids := by
  have h1 : download_parcel_info resp fid = DownloadResult.fail fid ("Request timeout") := by
    unfold download_parcel_info
    rw [ht]
  refine ⟨h1, ?_, ?_, ?_⟩
  · rw [h1]
    rfl
  · intro resp2 fid2 h
    unfold download_parcel_info
    rw [h]
  · obtain ⟨_, _, _, hcalls, _, _⟩ := runUpTo_complete env resp canceled fids B maxErr
      (numBatches fids.length B) (fun j _ => hcanc j)
      (fun j hj => Nat.le_trans
        (runUpTo_error_mono env resp canceled fids B maxErr j _ (Nat.le_of_lt hj)) hbud)
    exact hcalls.trans (flatten_batchSlices B hB fids.length fids rfl)

theorem C8_witness :
    download_parcel_info (fun _ => HttpOutcome.timeout) ("w1")
      = DownloadResult.fail ("w1") ("Request timeout")
    ∧ (runJob envOkValid (fun _ => HttpOutcome.timeout) (fun _ => false) fidsThree 1 3).calls
        = fidsThree := by
  have h := C8_transport_failure_single_attempt envOkValid (fun _ => HttpOutcome.timeout)
    (fun _ => false) fidsThree 1 3 ("w1") {} (by decide) rfl (fun i => rfl) (by decide)
  exact ⟨h.1, h.2.2.2⟩

/-- Claim C9 (counterexample): the claim says the per-batch progress
report is derived from (processed_count, total_count).  The source
computes the setProgress argument from `batch_end` — the count of
identifiers attempted so far (line 765) — not from the success counter
`processed_count`: in this run the two reports carry the same
(processed_count, total_count) pair (10, 20) but different reported
data, so no function of (processed_count, total_count) produces the
signal. -/
theorem C9_counterexample :
    (fetchJob envOkValid respHalfGeom (fun _ => false) fidsTwenty).progressTrace
      = [⟨10, 20, 10⟩, ⟨20, 20, 10⟩]
    ∧ ¬ ∃ f : Nat × Nat → Nat × Nat,
        ∀ r ∈ (fetchJob envOkValid respHalfGeom (fun _ => false) fidsTwenty).progressTrace,
          (r.batchEnd, r.total) = f (r.processedAtReport, r.total) := by
  refine ⟨by decide, ?_⟩
  rintro ⟨f, hf⟩
  have h1 := hf ⟨10, 20, 10⟩ (by decide)
  have h2 := hf ⟨20, 20, 10⟩ (by decide)
  have h3 : ((10 : Nat), (20 : Nat)) = ((20 : Nat), (20 : Nat)) := h1.trans h2.symm
  exact absurd h3 (by decide)

/-- Claim C9 (amended): after each completed batch the loop reports
progress derived from (attempted_count, total_count) — the end index
`batch_end` of the completed batch together with `total_parcels`
(lines 765 to 767) — to the progress sink, and this per-batch report is
the only incremental progress signal of the batch loop: in a full run
within budget the trace holds exactly one report per batch carrying
exactly those data. -/
theorem C9_progress_from_attempted_count (env : GeomEnv) (resp : String → HttpOutcome)
    (fids : List String) (B maxErr : Nat)
    (hbud : (runJob env resp (fun _ => false) fids B maxErr).error_count ≤ maxErr) :
    (runJob env resp (fun _ => false) fids B maxErr).progressTrace.map
        (fun r => (r.batchEnd, r.total))
      = (List.range (numBatches fids.length B)).map
          (fun i => (min ((i + 1) * B) fids.length, fids.length)) := by
  obtain ⟨_, _, _, _, _, hprog⟩ := runUpTo_complete env resp (fun _ => false) fids B maxErr
    (numBatches fids.length B) (fun j _ => rfl)
    (fun j hj => Nat.le_trans
      (runUpTo_error_mono env resp (fun _ => false) fids B maxErr j _ (Nat.le_of_lt hj)) hbud)
  exact hprog

theorem C9_witness :
    (runJob envOkValid respAllGood (fun _ => false) fidsEleven 10 1).error_count ≤ 1
    ∧ (runJob envOkValid respAllGood (fun _ => false) fidsEleven 10 1).progressTrace.map
        (fun r => (r.batchEnd, r.total))
      = (List.range (numBatches fidsEleven.length 10)).map
          (fun i => (min ((i + 1) * 10) fidsEleven.length, fidsEleven.length)) :=
  ⟨by decide,
    C9_progress_from_attempted_count envOkValid respAllGood fidsEleven 10 1 (by decide)⟩

end ParcelFetch
